import Mathlib

/-!
# pa1_skeleton.c: epoll echo server and multi-threaded RTT client

A shallow embedding of `src/pa1_skeleton.c`.

* C integers (`int`, `long`, `long long`, `time_t`) are mathematical integers.
  Signed overflow is undefined in C, so the model describes the executions in
  which every sum stays inside its type.
* System calls are modelled by the values they return; the values are inputs
  of the model (one record per loop iteration or per ready event).
* Integer division is the C operator: it truncates, and a zero divisor has no
  result (`none`).
* `double` arithmetic is modelled up to rounding: a value is a rational, an
  infinity or NaN, and division follows the IEEE 754 rules for zero divisors.
-/

namespace PA1

/-! ## Constants -/

/-- Constant `MAX_EVENTS`. -/
def MAX_EVENTS : Nat := 64

/-- Constant `MESSAGE_SIZE`. -/
def MESSAGE_SIZE : Nat := 16

/-- Value of `errno` after a call interrupted by a signal (Linux `EINTR`). -/
def EINTR : Int := 4

/-! ## C arithmetic -/

/-- C integer division `a / b`: truncation toward zero; dividing by zero is undefined
behaviour (a division fault on x86), rendered as `none`. -/
def cdiv (a b : Int) : Option Int :=
  if b = 0 then none else some (Int.tdiv a b)

/-- Values of a C floating-point expression, up to rounding. -/
inductive CFloat where
  | finite (q : ℚ)
  | inf (negative : Bool)
  | nan
  deriving DecidableEq

/-- Conversion of an integer to floating point. -/
def CFloat.ofInt (z : Int) : CFloat := CFloat.finite z

/-- Floating-point division `a / b` following IEEE 754: `0/0` and `inf/inf` are NaN, a nonzero
finite value over zero is an infinity, NaN propagates. Zeros are positive, as every zero
divisor in the program comes from `0 / 1000000.0`. -/
def CFloat.div : CFloat → CFloat → CFloat
  | CFloat.nan, _ => CFloat.nan
  | _, CFloat.nan => CFloat.nan
  | CFloat.inf _, CFloat.inf _ => CFloat.nan
  | CFloat.inf n, CFloat.finite b => CFloat.inf (n != decide (b < 0))
  | CFloat.finite _, CFloat.inf _ => CFloat.finite 0
  | CFloat.finite a, CFloat.finite b =>
      if b = 0 then (if a = 0 then CFloat.nan else CFloat.inf (decide (a < 0)))
      else CFloat.finite (a / b)

/-! ## Client: per-thread data and the request loop -/

/-- Record `struct timeval`. -/
structure Timeval where
  tv_sec : Int
  tv_usec : Int
  deriving DecidableEq, Repr

/-- Record `client_thread_data_t` (descriptors omitted: they do not enter the statistics). -/
structure client_thread_data_t where
  total_rtt : Int
  total_messages : Int
  request_rate : CFloat
  deriving DecidableEq

/-- Effect of `memset(&thread_data[i], 0, sizeof(client_thread_data_t))` in `run_client`. -/
def zeroed : client_thread_data_t :=
  { total_rtt := 0, total_messages := 0, request_rate := CFloat.finite 0 }

/-- What the environment answers during one iteration of the request loop: the two clock
readings and the return values of `send`, `epoll_wait` (with `errno`) and `recv`. A value of a
call the iteration does not reach is ignored. -/
structure IterOutcome where
  start : Timeval
  send_ret : Int
  wait_ret : Int
  wait_errno : Int
  recv_ret : Int
  finish : Timeval
  deriving DecidableEq

/-- Line 134: `(end.tv_sec - start.tv_sec) * 1000000LL + (end.tv_usec - start.tv_usec)`. -/
def rtt (start finish : Timeval) : Int :=
  (finish.tv_sec - start.tv_sec) * 1000000 + (finish.tv_usec - start.tv_usec)

/-- Body of the `for` loop of `client_thread_func` (lines 106-137). `none` is `break`;
`some d` is the record at the end of a completed iteration. -/
def iteration (x : IterOutcome) (d : client_thread_data_t) : Option client_thread_data_t :=
  if x.send_ret < 0 then none
  else if x.wait_ret < 0 then none
  else if x.recv_ret < 0 then none
  else some { d with total_rtt := d.total_rtt + rtt x.start x.finish,
                     total_messages := d.total_messages + 1 }

/-- Loop `for (int i = 0; i < num_requests; i++)` from iteration `i` on, with `remaining`
= `num_requests - i` iterations still allowed. Returns the value of `i` at loop exit and the
record. -/
def requestLoop (env : Nat → IterOutcome) :
    Nat → Nat → client_thread_data_t → Nat × client_thread_data_t
  | 0, i, d => (i, d)
  | remaining + 1, i, d =>
      match iteration (env i) d with
      | none => (i, d)
      | some d' => requestLoop env remaining (i + 1) d'

/-- Line 141: `(float)data->total_messages / (data->total_rtt / 1000000.0)`. -/
def request_rate_of (d : client_thread_data_t) : CFloat :=
  CFloat.div (CFloat.ofInt d.total_messages)
    (CFloat.div (CFloat.ofInt d.total_rtt) (CFloat.finite 1000000))

/-- Return values of the set-up calls of `client_thread_func` (lines 68-103). -/
structure SetupOutcome where
  socket_ret : Int
  connect_ret : Int
  epoll_create_ret : Int
  epoll_ctl_ret : Int
  deriving DecidableEq

/-- Function `client_thread_func`: the record left in `*data` when the thread ends. A failed
set-up call ends the thread (`pthread_exit`) before the loop and before line 141. -/
def client_thread_func (setup : SetupOutcome) (env : Nat → IterOutcome) (num_requests : Int)
    (d : client_thread_data_t) : client_thread_data_t :=
  if setup.socket_ret < 0 then d
  else if setup.connect_ret < 0 then d
  else if setup.epoll_create_ret < 0 then d
  else if setup.epoll_ctl_ret < 0 then d
  else
    let d1 := (requestLoop env num_requests.toNat 0 d).2
    { d1 with request_rate := request_rate_of d1 }

/-! ## Client: aggregation in `run_client` -/

/-- Running sums `total_rtt` and `total_messages` of `run_client`. -/
structure Totals where
  total_rtt : Int
  total_messages : Int
  deriving DecidableEq, Repr

/-- Second loop of `run_client` (lines 168-173) over the joined threads' records. -/
def aggregate (thread_data : List client_thread_data_t) : Totals :=
  thread_data.foldl
    (fun acc d => { total_rtt := acc.total_rtt + d.total_rtt,
                    total_messages := acc.total_messages + d.total_messages })
    { total_rtt := 0, total_messages := 0 }

/-- Line 176: the value printed as "Average RTT", `total_rtt / total_messages`. -/
def run_client_average (thread_data : List client_thread_data_t) : Option Int :=
  let t := aggregate thread_data
  cdiv t.total_rtt t.total_messages

/-- Function `run_client`, as far as the average RTT goes: one thread per entry of `threads`
(its length is `num_client_threads`), each started on a zeroed record and run to its end
against its own environment; then the records are aggregated. The sum of the `request_rate`
fields is not modelled. -/
def run_client (threads : List (SetupOutcome × (Nat → IterOutcome))) (num_requests : Int) :
    Option Int :=
  run_client_average (threads.map (fun t => client_thread_func t.1 t.2 num_requests zeroed))

/-! ## Server: descriptors, the epoll interest list and the event loop -/

/-- The part of the process state `run_server` acts on inside its loop. -/
structure ServerState where
  /-- Variable `listen_fd`. -/
  listen_fd : Int
  /-- Socket descriptors currently open: the listening one and the accepted ones. -/
  openFds : Finset Int
  /-- Interest list of the epoll instance `epoll_fd`. -/
  registered : Finset Int
  /-- Calls of `send` made so far, oldest first: descriptor and bytes passed. -/
  sent : List (Int × List Nat)

/-- Accepted connections that are open: every open socket but the listening one. -/
def ServerState.accepted (s : ServerState) : Finset Int :=
  s.openFds.erase s.listen_fd

/-- State at the top of the loop (line 235): `listen_fd` is open and is the only registered
descriptor (lines 187-232 succeeded, otherwise the process has exited). -/
def initialState (listen_fd : Int) : ServerState :=
  { listen_fd := listen_fd, openFds := {listen_fd}, registered := {listen_fd}, sent := [] }

/-- Call `close(fd)`. The program never duplicates a descriptor, so closing one releases its
open file description, which also removes it from the epoll interest list (epoll(7)). -/
def sys_close (s : ServerState) (fd : Int) : ServerState :=
  { s with openFds := s.openFds.erase fd, registered := s.registered.erase fd }

/-- Call `accept(listen_fd, NULL, NULL)` returning `ret`: a non-negative `ret` is a new open
descriptor. -/
def sys_accept (s : ServerState) (ret : Int) : ServerState :=
  if ret < 0 then s else { s with openFds := insert ret s.openFds }

/-- Call `epoll_ctl(epoll_fd, EPOLL_CTL_ADD, fd, &event)` returning `ret`. -/
def epoll_ctl_add (s : ServerState) (fd ret : Int) : ServerState :=
  if ret < 0 then s else { s with registered := insert fd s.registered }

/-- Call `epoll_ctl(epoll_fd, EPOLL_CTL_DEL, fd, NULL)`: fails (`EBADF`) and changes nothing
when `fd` is not open. -/
def epoll_ctl_del (s : ServerState) (fd : Int) : ServerState :=
  if fd ∈ s.openFds then { s with registered := s.registered.erase fd } else s

/-- Call `send(fd, buf, len, 0)` with `bytes` the first `len` bytes of `buf`; the return value
is ignored by the server. -/
def sys_send (s : ServerState) (fd : Int) (bytes : List Nat) : ServerState :=
  { s with sent := s.sent ++ [(fd, bytes)] }

/-- Contents of `buf` after `recv` stored `received` at its start. -/
def recv_into (buf received : List Nat) : List Nat :=
  received ++ buf.drop received.length

/-- One entry `events[i]` together with what the environment answers while it is handled:
the return values of `accept`, `epoll_ctl` and `recv`, the bytes `recv` stored, and the
contents `buf` had before. A value of a call the handler does not make is ignored. -/
structure ReadyEvent where
  fd : Int
  accept_ret : Int
  ctl_ret : Int
  bytes_read : Int
  received : List Nat
  buf : List Nat

/-- Body of the inner `for` loop of `run_server` (lines 247-279). -/
def handleEvent (s : ServerState) (ev : ReadyEvent) : ServerState :=
  if ev.fd = s.listen_fd then
    if ev.accept_ret < 0 then s
    else
      let s1 := sys_accept s ev.accept_ret
      if ev.ctl_ret < 0 then sys_close s1 ev.accept_ret
      else epoll_ctl_add s1 ev.accept_ret ev.ctl_ret
  else
    let buf := recv_into ev.buf ev.received
    if ev.bytes_read ≤ 0 then epoll_ctl_del (sys_close s ev.fd) ev.fd
    else sys_send s ev.fd (buf.take ev.bytes_read.toNat)

/-- Inner loop `for (int i = 0; i < n; i++)` over the entries `events[0..n)`. -/
def handleEvents (s : ServerState) (evs : List ReadyEvent) : ServerState :=
  evs.foldl handleEvent s

/-- One return of `epoll_wait` in the server: its value `n`, `errno` when `n < 0`, and the
entries it stored. -/
structure WaitOutcome where
  n : Int
  errno : Int
  events : List ReadyEvent

/-- Loop `while (1)` of `run_server` (lines 235-281) run against the successive returns of
`epoll_wait`. The flag tells whether the loop was left by `break`; with no return left the
observation ends with the loop still running. -/
def serverLoop : ServerState → List WaitOutcome → ServerState × Bool
  | s, [] => (s, false)
  | s, w :: ws =>
      if w.n < 0 then
        if w.errno = EINTR then serverLoop s ws
        else (s, true)
      else serverLoop (handleEvents s (w.events.take w.n.toNat)) ws

/-- Kernel guarantee on `accept`: a descriptor it returns was not open before the call. -/
def freshAccept (s : ServerState) (ev : ReadyEvent) : Prop :=
  ev.fd = s.listen_fd → 0 ≤ ev.accept_ret → ev.accept_ret ∉ s.openFds

instance (s : ServerState) (ev : ReadyEvent) : Decidable (freshAccept s ev) := by
  unfold freshAccept; infer_instance

/-- Every `accept` along the sequence of events returns a fresh descriptor. -/
def validEvents : ServerState → List ReadyEvent → Prop
  | _, [] => True
  | s, ev :: evs => freshAccept s ev ∧ validEvents (handleEvent s ev) evs

instance validEventsDecidable : (s : ServerState) → (evs : List ReadyEvent) →
    Decidable (validEvents s evs)
  | _, [] => isTrue trivial
  | s, ev :: evs =>
      have := validEventsDecidable (handleEvent s ev) evs
      inferInstanceAs (Decidable (freshAccept s ev ∧ validEvents (handleEvent s ev) evs))

/-- Kernel guarantee on `recv`: a positive return value is the number of bytes stored. -/
def recvStored (ev : ReadyEvent) : Prop :=
  0 < ev.bytes_read → (ev.received.length : Int) = ev.bytes_read

instance (ev : ReadyEvent) : Decidable (recvStored ev) := by
  unfold recvStored; infer_instance

/-- Bytes passed to `send` on descriptor `e`, in order. -/
def sentTo (e : Int) (sent : List (Int × List Nat)) : List Nat :=
  ((sent.filter (fun p => p.1 = e)).map Prod.snd).flatten

/-- Bytes obtained by the positive reads on descriptor `e` along a sequence of events handled
by the client branch, in order. -/
def readFrom (listen_fd e : Int) (evs : List ReadyEvent) : List Nat :=
  ((evs.filter (fun ev => ev.fd = e ∧ ev.fd ≠ listen_fd ∧ 0 < ev.bytes_read)).map
    ReadyEvent.received).flatten

/-! ## Vocabulary of the statements and sample inputs: client -/

/-- An iteration in which `send`, `epoll_wait` or `recv` reports failure (a negative return
value). -/
def reportsFailure (x : IterOutcome) : Prop :=
  x.send_ret < 0 ∨ x.wait_ret < 0 ∨ x.recv_ret < 0

instance (x : IterOutcome) : Decidable (reportsFailure x) := by
  unfold reportsFailure; infer_instance

/-- A clock reading with `0 <= tv_usec < 1000000`. -/
def Timeval.normalized (t : Timeval) : Prop :=
  0 ≤ t.tv_usec ∧ t.tv_usec < 1000000

instance (t : Timeval) : Decidable t.normalized := by
  unfold Timeval.normalized; infer_instance

/-- Reading `a` is not later than reading `b`. -/
def Timeval.notLater (a b : Timeval) : Prop :=
  a.tv_sec < b.tv_sec ∨ (a.tv_sec = b.tv_sec ∧ a.tv_usec ≤ b.tv_usec)

instance (a b : Timeval) : Decidable (a.notLater b) := by
  unfold Timeval.notLater; infer_instance

/-- Set-up outcome in which every call succeeds (descriptors 3 and 4). -/
def setupOk : SetupOutcome :=
  { socket_ret := 3, connect_ret := 0, epoll_create_ret := 4, epoll_ctl_ret := 0 }

/-- Set-up outcome in which `connect` fails: nothing listens on the port. -/
def setupRefused : SetupOutcome :=
  { socket_ret := 3, connect_ret := -1, epoll_create_ret := 4, epoll_ctl_ret := 0 }

/-- An iteration whose calls all succeed: 16 bytes sent, one ready event, 16 bytes received,
250 microseconds between the clock readings. -/
def roundTripOk : IterOutcome :=
  { start := { tv_sec := 100, tv_usec := 999900 }, send_ret := 16, wait_ret := 1,
    wait_errno := 0, recv_ret := 16, finish := { tv_sec := 101, tv_usec := 150 } }

/-- An iteration whose `epoll_wait` is interrupted by a signal: `-1` with `errno == EINTR`. -/
def waitInterrupted : IterOutcome :=
  { roundTripOk with wait_ret := -1, wait_errno := EINTR }

/-- An iteration whose `recv` returns 0: the peer closed the connection. -/
def peerClosed : IterOutcome :=
  { roundTripOk with recv_ret := 0 }

/-- An iteration whose `send` fails. -/
def sendFails : IterOutcome :=
  { roundTripOk with send_ret := -1 }

/-- Every set-up call of `client_thread_func` succeeded. -/
def SetupOutcome.succeeded (u : SetupOutcome) : Prop :=
  0 ≤ u.socket_ret ∧ 0 ≤ u.connect_ret ∧ 0 ≤ u.epoll_create_ret ∧ 0 ≤ u.epoll_ctl_ret

instance (u : SetupOutcome) : Decidable u.succeeded := by
  unfold SetupOutcome.succeeded; infer_instance

/-! ## Vocabulary of the statements and sample inputs: server -/

/-- Registration and descriptor lifetime are coupled: the listening socket is open and the
interest list is exactly the set of open sockets. -/
def Coupled (s : ServerState) : Prop :=
  s.listen_fd ∈ s.openFds ∧ s.registered = s.openFds

/-- Every `accept` along the successive returns of `epoll_wait` handled by the server loop
returns a fresh descriptor. -/
def validWaits : ServerState → List WaitOutcome → Prop
  | _, [] => True
  | s, w :: ws =>
      if w.n < 0 then
        if w.errno = EINTR then validWaits s ws else True
      else
        validEvents s (w.events.take w.n.toNat)
          ∧ validWaits (handleEvents s (w.events.take w.n.toNat)) ws

/-- The listening socket is ready, `accept` returns `fd` and the registration succeeds. -/
def acceptOk (listen_fd fd : Int) : ReadyEvent :=
  { fd := listen_fd, accept_ret := fd, ctl_ret := 0, bytes_read := 0, received := [],
    buf := [] }

/-- The listening socket is ready and `accept` fails. -/
def acceptFails (listen_fd : Int) : ReadyEvent :=
  { fd := listen_fd, accept_ret := -1, ctl_ret := 0, bytes_read := 0, received := [],
    buf := [] }

/-- The listening socket is ready, `accept` returns `fd` and the registration fails. -/
def acceptUnregistered (listen_fd fd : Int) : ReadyEvent :=
  { fd := listen_fd, accept_ret := fd, ctl_ret := -1, bytes_read := 0, received := [],
    buf := [] }

/-- Connection `fd` is ready and `recv` stores `bytes` over a buffer holding sixteen 255s. -/
def readBytes (fd : Int) (bytes : List Nat) : ReadyEvent :=
  { fd := fd, accept_ret := 0, ctl_ret := 0, bytes_read := bytes.length, received := bytes,
    buf := List.replicate MESSAGE_SIZE 255 }

/-- Connection `fd` is ready and `recv` returns `ret <= 0`. -/
def readNothing (fd ret : Int) : ReadyEvent :=
  { fd := fd, accept_ret := 0, ctl_ret := 0, bytes_read := ret, received := [],
    buf := List.replicate MESSAGE_SIZE 255 }

/-- A run against listening descriptor 3: connection 5 accepted, an `accept` that fails,
connection 6 accepted but not registered, 3 bytes echoed on 5, connection 6 accepted again,
end of stream on 5, a read error on 6. -/
def sampleEvents : List ReadyEvent :=
  [acceptOk 3 5, acceptFails 3, acceptUnregistered 3 6, readBytes 5 [65, 66, 67],
   acceptOk 3 6, readNothing 5 0, readNothing 6 (-1)]

/-! ## Lemmas: client -/

theorem aggregate_foldl (ds : List client_thread_data_t) (acc : Totals) :
    ds.foldl
      (fun acc d => ({ total_rtt := acc.total_rtt + d.total_rtt,
                       total_messages := acc.total_messages + d.total_messages } : Totals))
      acc
    = { total_rtt := acc.total_rtt + (ds.map client_thread_data_t.total_rtt).sum,
        total_messages :=
          acc.total_messages + (ds.map client_thread_data_t.total_messages).sum } := by
  induction ds generalizing acc with
  | nil => simp
  | cons d ds ih =>
      simp only [List.foldl_cons, List.map_cons, List.sum_cons]
      rw [ih]
      simp [add_assoc]

theorem aggregate_eq (ds : List client_thread_data_t) :
    aggregate ds
    = { total_rtt := (ds.map client_thread_data_t.total_rtt).sum,
        total_messages := (ds.map client_thread_data_t.total_messages).sum } := by
  unfold aggregate
  rw [aggregate_foldl]
  simp

theorem sum_total_rtt_nonneg (ds : List client_thread_data_t)
    (h : ∀ d ∈ ds, 0 ≤ d.total_rtt) :
    0 ≤ (ds.map client_thread_data_t.total_rtt).sum := by
  apply List.sum_nonneg
  intro x hx
  rcases List.mem_map.mp hx with ⟨d, hd, rfl⟩
  exact h d hd

theorem iteration_of_not_failure (x : IterOutcome) (d : client_thread_data_t)
    (h : ¬ reportsFailure x) :
    iteration x d = some { d with total_rtt := d.total_rtt + rtt x.start x.finish,
                                  total_messages := d.total_messages + 1 } := by
  unfold reportsFailure at h
  push_neg at h
  obtain ⟨h1, h2, h3⟩ := h
  simp [iteration, not_lt.mpr h1, not_lt.mpr h2, not_lt.mpr h3]

theorem iteration_of_failure (x : IterOutcome) (d : client_thread_data_t)
    (h : reportsFailure x) : iteration x d = none := by
  unfold reportsFailure at h
  unfold iteration
  by_cases h1 : x.send_ret < 0
  · simp [h1]
  · by_cases h2 : x.wait_ret < 0
    · simp [h1, h2]
    · have h3 : x.recv_ret < 0 := by tauto
      simp [h1, h2, h3]

/-- The loop started at iteration `i` with `r` iterations allowed stops at the first failing
iteration `k` (or at `i + r`), having added the round trips `i .. k-1` to the record. -/
theorem requestLoop_spec (env : Nat → IterOutcome) :
    ∀ (r i : Nat) (d : client_thread_data_t) (k : Nat), i ≤ k → k ≤ i + r →
      (∀ j, i ≤ j → j < k → ¬ reportsFailure (env j)) →
      (k = i + r ∨ reportsFailure (env k)) →
      requestLoop env r i d
        = (k, { d with
                total_rtt := d.total_rtt
                  + ∑ j in Finset.Ico i k, rtt (env j).start (env j).finish,
                total_messages := d.total_messages + ((k : Int) - (i : Int)) }) := by
  intro r
  induction r with
  | zero =>
      intro i d k hik hki _ _
      have hk : k = i := by omega
      subst hk
      simp [requestLoop]
  | succ r ih =>
      intro i d k hik hki hok hstop
      rcases Nat.eq_or_lt_of_le hik with hk | hk
      · subst hk
        have hf : reportsFailure (env i) := by
          rcases hstop with h | h
          · omega
          · exact h
        simp [requestLoop, iteration_of_failure _ _ hf]
      · have hc : ¬ reportsFailure (env i) := hok i le_rfl hk
        have hstop' : k = (i + 1) + r ∨ reportsFailure (env k) := by
          rcases hstop with h | h
          · left; omega
          · right; exact h
        simp only [requestLoop, iteration_of_not_failure _ _ hc]
        rw [ih (i + 1) _ k hk (by omega) (fun j h1 h2 => hok j (by omega) h2) hstop']
        rw [Finset.sum_eq_sum_Ico_succ_bot hk]
        simp only [Prod.mk.injEq, true_and]
        congr 1
        · ring
        · push_cast; ring

theorem rtt_nonneg (a b : Timeval) (ha : a.normalized) (hb : b.normalized)
    (h : a.notLater b) : 0 ≤ rtt a b := by
  unfold Timeval.normalized at ha hb
  unfold Timeval.notLater at h
  unfold rtt
  rcases h with h | ⟨h1, h2⟩
  · nlinarith [ha.1, ha.2, hb.1, hb.2]
  · rw [h1]; simp; exact h2

/-- Every iteration reports failure or not: a first failing index below `n`, or `n`, exists. -/
theorem exists_first_failure (env : Nat → IterOutcome) (n : Nat) :
    ∃ k, k ≤ n ∧ (∀ j, j < k → ¬ reportsFailure (env j)) ∧
      (k = n ∨ reportsFailure (env k)) := by
  induction n with
  | zero => exact ⟨0, le_rfl, by intro j hj; omega, Or.inl rfl⟩
  | succ n ih =>
      obtain ⟨k, hk, hok, hstop⟩ := ih
      rcases hstop with h | h
      · subst h
        by_cases hf : reportsFailure (env k)
        · exact ⟨k, by omega, hok, Or.inr hf⟩
        · refine ⟨k + 1, le_rfl, ?_, Or.inl rfl⟩
          intro j hj
          rcases Nat.lt_succ_iff_lt_or_eq.mp hj with h1 | h1
          · exact hok j h1
          · rw [h1]; exact hf
      · exact ⟨k, by omega, hok, Or.inr h⟩

theorem client_thread_func_of_succeeded (u : SetupOutcome) (env : Nat → IterOutcome)
    (N : Int) (d : client_thread_data_t) (h : u.succeeded) :
    client_thread_func u env N d
      = { (requestLoop env N.toNat 0 d).2 with
          request_rate := request_rate_of (requestLoop env N.toNat 0 d).2 } := by
  obtain ⟨h1, h2, h3, h4⟩ := h
  simp [client_thread_func, not_lt.mpr h1, not_lt.mpr h2, not_lt.mpr h3, not_lt.mpr h4]

theorem client_thread_func_of_failed (u : SetupOutcome) (env : Nat → IterOutcome)
    (N : Int) (d : client_thread_data_t) (h : ¬ u.succeeded) :
    client_thread_func u env N d = d := by
  unfold SetupOutcome.succeeded at h
  unfold client_thread_func
  by_cases h1 : u.socket_ret < 0
  · simp [h1]
  · by_cases h2 : u.connect_ret < 0
    · simp [h1, h2]
    · by_cases h3 : u.epoll_create_ret < 0
      · simp [h1, h2, h3]
      · have h4 : u.epoll_ctl_ret < 0 := by
          by_contra h4
          exact h ⟨not_lt.mp h1, not_lt.mp h2, not_lt.mp h3, not_lt.mp h4⟩
        simp [h1, h2, h3, h4]

/-- With a zero duration, line 141 yields NaN for zero messages and an infinity otherwise. -/
theorem request_rate_of_zero_rtt (d : client_thread_data_t) (h : d.total_rtt = 0) :
    request_rate_of d
      = if d.total_messages = 0 then CFloat.nan
        else CFloat.inf (decide (d.total_messages < 0)) := by
  simp [request_rate_of, CFloat.div, CFloat.ofInt, h]

/-- A zero message total makes line 176 divide by zero. -/
theorem run_client_average_zero_messages (ds : List client_thread_data_t)
    (h : (ds.map client_thread_data_t.total_messages).sum = 0) :
    run_client_average ds = none := by
  simp [run_client_average, aggregate_eq, cdiv, h]

/-! ## Theorems: client -/

/-- C2, evaluated: one worker whose `connect` was refused leaves its record zeroed, and the
average computed by `run_client` is then a division by zero with no result; the same holds
with zero worker threads. -/
theorem run_client_average_no_data :
    client_thread_func setupRefused (fun _ => roundTripOk) 10 zeroed = zeroed
    ∧ run_client [(setupRefused, fun _ => roundTripOk)] 10 = none
    ∧ run_client [] 10 = none := by
  refine ⟨?_, ?_, ?_⟩
  · rfl
  · rfl
  · rfl

/-- C3, evaluated: with a request count of 0, or with a first `send` that fails, the thread
reaches line 141 with `total_rtt == 0` and `total_messages == 0` and stores NaN; with one
round trip measured as 0 microseconds it stores an infinity. -/
theorem request_rate_not_zero :
    (client_thread_func setupOk (fun _ => roundTripOk) 0 zeroed).request_rate = CFloat.nan
    ∧ (client_thread_func setupOk (fun _ => sendFails) 5 zeroed).request_rate = CFloat.nan
    ∧ (client_thread_func setupOk
        (fun _ => { roundTripOk with finish := roundTripOk.start }) 1 zeroed).request_rate
      = CFloat.inf false := by
  refine ⟨?_, ?_, ?_⟩
  · rw [client_thread_func_of_succeeded _ _ _ _ (by decide)]
    simp [requestLoop, request_rate_of_zero_rtt, zeroed]
  · rw [client_thread_func_of_succeeded _ _ _ _ (by decide)]
    simp [requestLoop, iteration, sendFails, request_rate_of_zero_rtt, zeroed]
  · rw [client_thread_func_of_succeeded _ _ _ _ (by decide)]
    simp [requestLoop, iteration, roundTripOk, rtt, request_rate_of_zero_rtt, zeroed]

/-- C6, evaluated on the client: with 3 requests configured and the first `epoll_wait`
returning -1 with `errno == EINTR`, the request loop is left at iteration 0 and the thread
ends with no message counted, although every later call would succeed. -/
theorem client_wait_eintr_aborts :
    requestLoop (fun i => if i = 0 then waitInterrupted else roundTripOk) 3 0 zeroed
      = (0, zeroed)
    ∧ (client_thread_func setupOk
        (fun i => if i = 0 then waitInterrupted else roundTripOk) 3 zeroed).total_messages
      = 0 := by
  constructor
  · rfl
  · rfl

/-- C10: an iteration of the request loop is counted (its RTT added, `total_messages`
incremented, and the loop goes on with the next request) exactly when `send`, `epoll_wait`
and `recv` each return a non-negative value; otherwise the loop is left with the record
unchanged. A `recv` returning 0 is therefore counted. -/
theorem iteration_counted_iff_nonneg (env : Nat → IterOutcome) (remaining i : Nat)
    (d : client_thread_data_t) :
    (0 ≤ (env i).send_ret ∧ 0 ≤ (env i).wait_ret ∧ 0 ≤ (env i).recv_ret →
      requestLoop env (remaining + 1) i d
        = requestLoop env remaining (i + 1)
            { d with total_rtt := d.total_rtt + rtt (env i).start (env i).finish,
                     total_messages := d.total_messages + 1 })
    ∧ (¬ (0 ≤ (env i).send_ret ∧ 0 ≤ (env i).wait_ret ∧ 0 ≤ (env i).recv_ret) →
      requestLoop env (remaining + 1) i d = (i, d)) := by
  constructor
  · intro h
    have hc : ¬ reportsFailure (env i) := by
      unfold reportsFailure
      omega
    simp only [requestLoop, iteration_of_not_failure _ _ hc]
  · intro h
    have hf : reportsFailure (env i) := by
      unfold reportsFailure
      omega
    simp only [requestLoop, iteration_of_failure _ _ hf]

/-- Witness: two requests, the first `recv` returns 0 bytes; both iterations are
counted. A first `recv` returning -1 leaves the loop at once. -/
theorem iteration_counted_iff_nonneg_witness :
    requestLoop (fun i => if i = 0 then peerClosed else roundTripOk) 2 0 zeroed
      = (2, { zeroed with total_rtt := 500, total_messages := 2 })
    ∧ requestLoop (fun _ => { roundTripOk with recv_ret := -1 }) 2 0 zeroed = (0, zeroed) := by
  constructor
  · rw [(iteration_counted_iff_nonneg (fun i => if i = 0 then peerClosed else roundTripOk)
      1 0 zeroed).1 (by decide)]
    rfl
  · exact (iteration_counted_iff_nonneg (fun _ => { roundTripOk with recv_ret := -1 })
      1 0 zeroed).2 (by decide)

/-! ## Lemmas: server -/

theorem handleEvent_listen_fd (s : ServerState) (ev : ReadyEvent) :
    (handleEvent s ev).listen_fd = s.listen_fd := by
  unfold handleEvent sys_accept sys_close epoll_ctl_add epoll_ctl_del sys_send
  split_ifs <;> simp_all

theorem handleEvents_listen_fd (evs : List ReadyEvent) (s : ServerState) :
    (handleEvents s evs).listen_fd = s.listen_fd := by
  induction evs generalizing s with
  | nil => rfl
  | cons ev evs ih =>
      simp only [handleEvents, List.foldl_cons] at ih ⊢
      rw [ih, handleEvent_listen_fd]

theorem initialState_coupled (listen_fd : Int) : Coupled (initialState listen_fd) := by
  simp [Coupled, initialState]

theorem handleEvent_coupled (s : ServerState) (ev : ReadyEvent) (hs : Coupled s)
    (hf : freshAccept s ev) : Coupled (handleEvent s ev) := by
  obtain ⟨hl, hr⟩ := hs
  unfold freshAccept at hf
  unfold Coupled handleEvent
  by_cases h1 : ev.fd = s.listen_fd
  · by_cases h2 : ev.accept_ret < 0
    · simp [h1, h2, hl, hr]
    · have hfresh : ev.accept_ret ∉ s.openFds := hf h1 (not_lt.mp h2)
      have hne : s.listen_fd ≠ ev.accept_ret := by
        intro h
        exact hfresh (h ▸ hl)
      by_cases h3 : ev.ctl_ret < 0
      · simp [h1, h2, h3, sys_accept, sys_close, hr, Finset.erase_insert hfresh,
          Finset.erase_eq_of_not_mem hfresh, hl]
      · simp [h1, h2, h3, sys_accept, epoll_ctl_add, hr, hl]
  · by_cases h2 : ev.bytes_read ≤ 0
    · have hne : s.listen_fd ≠ ev.fd := fun h => h1 h.symm
      simp [h1, h2, sys_close, epoll_ctl_del, hr, hl, hne]
    · simp [h1, h2, sys_send, hr, hl]

theorem handleEvents_coupled (evs : List ReadyEvent) (s : ServerState) (hs : Coupled s)
    (hv : validEvents s evs) : Coupled (handleEvents s evs) := by
  induction evs generalizing s with
  | nil => exact hs
  | cons ev evs ih =>
      obtain ⟨hf, hrest⟩ := hv
      simp only [handleEvents, List.foldl_cons] at ih ⊢
      exact ih _ (handleEvent_coupled s ev hs hf) hrest

/-- The client branch extends the log of `send` calls exactly on a positive read. -/
theorem handleEvent_sent (s : ServerState) (ev : ReadyEvent) :
    (handleEvent s ev).sent
      = if ev.fd ≠ s.listen_fd ∧ 0 < ev.bytes_read then
          s.sent ++ [(ev.fd, (recv_into ev.buf ev.received).take ev.bytes_read.toNat)]
        else s.sent := by
  unfold handleEvent sys_accept sys_close epoll_ctl_add epoll_ctl_del sys_send
  split_ifs <;> simp_all
  omega

theorem take_recv_into (ev : ReadyEvent) (h : recvStored ev) (hpos : 0 < ev.bytes_read) :
    (recv_into ev.buf ev.received).take ev.bytes_read.toNat = ev.received := by
  have hlen : ev.bytes_read.toNat = ev.received.length := by
    have := h hpos
    omega
  rw [hlen]
  unfold recv_into
  simp

theorem sentTo_append (e : Int) (l1 l2 : List (Int × List Nat)) :
    sentTo e (l1 ++ l2) = sentTo e l1 ++ sentTo e l2 := by
  simp [sentTo]

/-- Along any sequence of events, the bytes sent to a descriptor are the bytes read from it. -/
theorem handleEvents_echo_stream (evs : List ReadyEvent) (s : ServerState) (e : Int)
    (hrecv : ∀ ev ∈ evs, recvStored ev) :
    sentTo e (handleEvents s evs).sent = sentTo e s.sent ++ readFrom s.listen_fd e evs := by
  induction evs generalizing s with
  | nil => simp [handleEvents, readFrom]
  | cons ev evs ih =>
      have hrest : ∀ x ∈ evs, recvStored x := fun x hx => hrecv x (List.mem_cons_of_mem _ hx)
      have hev : recvStored ev := hrecv ev (List.mem_cons_self _ _)
      simp only [handleEvents, List.foldl_cons] at ih ⊢
      rw [ih _ hrest, handleEvent_listen_fd, handleEvent_sent]
      by_cases hc : ev.fd ≠ s.listen_fd ∧ 0 < ev.bytes_read
      · rw [if_pos hc, take_recv_into ev hev hc.2, sentTo_append]
        by_cases he : ev.fd = e
        · have hne : e ≠ s.listen_fd := he ▸ hc.1
          simp [readFrom, sentTo, List.filter_cons, he, hc.2, hne]
        · simp [readFrom, sentTo, List.filter_cons, he]
      · rw [if_neg hc]
        have : ¬ (ev.fd = e ∧ ev.fd ≠ s.listen_fd ∧ 0 < ev.bytes_read) := fun h => hc h.2
        simp [readFrom, List.filter_cons, this]

/-- An `epoll_wait` interrupted by a signal leaves the server loop running on the same
state. -/
theorem serverLoop_eintr (s : ServerState) (w : WaitOutcome) (ws : List WaitOutcome)
    (hn : w.n < 0) (he : w.errno = EINTR) : serverLoop s (w :: ws) = serverLoop s ws := by
  simp [serverLoop, hn, he]

/-- The coupling of registration and descriptor lifetime holds whenever the server loop is
observed, also across interrupted waits and after the loop is left. -/
theorem serverLoop_coupled (ws : List WaitOutcome) (s : ServerState) (hs : Coupled s)
    (hv : validWaits s ws) : Coupled (serverLoop s ws).1 := by
  induction ws generalizing s with
  | nil => exact hs
  | cons w ws ih =>
      unfold validWaits at hv
      unfold serverLoop
      by_cases hn : w.n < 0
      · by_cases he : w.errno = EINTR
        · simp only [if_pos hn, if_pos he] at hv ⊢
          exact ih s hs hv
        · simp only [if_pos hn, if_neg he]
          exact hs
      · simp only [if_neg hn] at hv ⊢
        exact ih _ (handleEvents_coupled _ s hs hv.1) hv.2

/-! ## Theorems: server -/

/-- C4: starting from the state in which only the listening descriptor is registered, after
every sequence of ready events (accept succeeding, accept failing, accept followed by a
failed registration, positive read, zero or negative read) the registered set is the set of
open accepted connections plus the listening descriptor, which is still open. -/
theorem server_registered_eq_accepted_plus_listen (listen_fd : Int) (evs : List ReadyEvent)
    (hv : validEvents (initialState listen_fd) evs) :
    (handleEvents (initialState listen_fd) evs).registered
        = insert listen_fd (handleEvents (initialState listen_fd) evs).accepted
    ∧ listen_fd ∈ (handleEvents (initialState listen_fd) evs).openFds := by
  have hc := handleEvents_coupled evs _ (initialState_coupled listen_fd) hv
  have hl : (handleEvents (initialState listen_fd) evs).listen_fd = listen_fd :=
    handleEvents_listen_fd evs _
  obtain ⟨h1, h2⟩ := hc
  rw [hl] at h1
  refine ⟨?_, h1⟩
  rw [h2, ServerState.accepted, hl, Finset.insert_erase h1]

/-- Witness: the sample run is a valid sequence of events; the invariant holds at its
end. -/
theorem server_registered_eq_accepted_plus_listen_witness :
    validEvents (initialState 3) sampleEvents
    ∧ (handleEvents (initialState 3) sampleEvents).registered
        = insert 3 (handleEvents (initialState 3) sampleEvents).accepted
    ∧ (3 : Int) ∈ (handleEvents (initialState 3) sampleEvents).openFds :=
  ⟨by decide, server_registered_eq_accepted_plus_listen 3 sampleEvents (by decide)⟩

/-- C9: when an accepted connection `e` is ready and `recv` on it returns zero or a negative
value, the handler leaves `e` closed and deregistered, makes no `send`, and every other
descriptor (the other accepted connections and the listening socket) stays open and
registered as it was. -/
theorem server_closes_on_nonpositive_read (s : ServerState) (ev : ReadyEvent)
    (hfd : ev.fd ≠ s.listen_fd) (hread : ev.bytes_read ≤ 0) :
    ev.fd ∉ (handleEvent s ev).openFds
    ∧ ev.fd ∉ (handleEvent s ev).registered
    ∧ (handleEvent s ev).sent = s.sent
    ∧ (∀ f, f ≠ ev.fd →
        (f ∈ (handleEvent s ev).openFds ↔ f ∈ s.openFds)
        ∧ (f ∈ (handleEvent s ev).registered ↔ f ∈ s.registered))
    ∧ (s.listen_fd ∈ (handleEvent s ev).openFds ↔ s.listen_fd ∈ s.openFds)
    ∧ (s.listen_fd ∈ (handleEvent s ev).registered ↔ s.listen_fd ∈ s.registered) := by
  have hne : s.listen_fd ≠ ev.fd := fun h => hfd h.symm
  have ho : (handleEvent s ev).openFds = s.openFds.erase ev.fd := by
    simp [handleEvent, hfd, hread, sys_close, epoll_ctl_del]
  have hr : (handleEvent s ev).registered = s.registered.erase ev.fd := by
    simp [handleEvent, hfd, hread, sys_close, epoll_ctl_del]
  have hs : (handleEvent s ev).sent = s.sent := by
    simp [handleEvent, hfd, hread, sys_close, epoll_ctl_del]
  rw [ho, hr, hs]
  refine ⟨by simp, by simp, rfl, ?_, by simp [hne], by simp [hne]⟩
  intro f hf
  simp [hf]

/-- Witness: with connections 5 and 6 open, a zero-byte read on 5 leaves 3 and 6 open
and registered, 5 closed and deregistered, and nothing sent. -/
theorem server_closes_on_nonpositive_read_witness :
    (handleEvent (handleEvents (initialState 3) [acceptOk 3 5, acceptOk 3 6])
        (readNothing 5 0)).openFds = {3, 6}
    ∧ (handleEvent (handleEvents (initialState 3) [acceptOk 3 5, acceptOk 3 6])
        (readNothing 5 0)).registered = {3, 6}
    ∧ (5 : Int) ∉ (handleEvent (handleEvents (initialState 3) [acceptOk 3 5, acceptOk 3 6])
        (readNothing 5 0)).openFds
    ∧ (handleEvent (handleEvents (initialState 3) [acceptOk 3 5, acceptOk 3 6])
        (readNothing 5 0)).sent = [] := by
  have h := server_closes_on_nonpositive_read
    (handleEvents (initialState 3) [acceptOk 3 5, acceptOk 3 6]) (readNothing 5 0)
    (by decide) (by decide)
  refine ⟨by decide, by decide, h.1, ?_⟩
  rw [h.2.2.1]
  decide

end PA1
